import Mathlib

/-!
Shallow embedding of the air-pollution dashboard's data pipeline
(`src/app.py`): column-name normalization, the rename heuristics of
`load_base_data`, metric resolution (`get_metric_options`), the
filter/aggregate pipeline of the map page, the Data-Lab cleaning
pipeline, and the PM2.5 column guessing of the deep-dive and trends
pages.  Numeric cell values are modelled as `Option ℚ` (missing = NaN),
dataframes as lists of rows.
-/

namespace AirDash

/-! ### String helpers (pandas `.str` operations used in `app.py`) -/

/-- `str.strip()`: remove leading and trailing whitespace. -/
def stripChars (l : List Char) : List Char :=
  ((l.dropWhile Char.isWhitespace).reverse.dropWhile Char.isWhitespace).reverse

def stripStr (s : String) : String := ⟨stripChars s.data⟩

/-- `str.lower()`. -/
def lowerStr (s : String) : String := ⟨s.data.map Char.toLower⟩

/-- `str.replace(" ", "_")`. -/
def underscoreSpaces (s : String) : String :=
  ⟨s.data.map (fun c => if c = ' ' then '_' else c)⟩

/-- `str.replace(ch, "", regex=False)`: delete every occurrence of `ch`. -/
def dropChar (ch : Char) (s : String) : String :=
  ⟨s.data.filter (fun c => c != ch)⟩

/-- Column normalization applied by both loaders (app.py lines 15-22 and
58-65): strip, lowercase, spaces to underscores, delete `(`, `)`, `.`. -/
def normalizeCol (s : String) : String :=
  dropChar '.' (dropChar ')' (dropChar '(' (underscoreSpaces (lowerStr (stripStr s)))))

/-- Is `p` a leading segment of `s`? -/
def leadsIn : List Char → List Char → Bool
  | [], _ => true
  | _ :: _, [] => false
  | a :: as, b :: bs => a == b && leadsIn as bs

def chunkIn (p : List Char) : List Char → Bool
  | [] => p.isEmpty
  | c :: rest => leadsIn p (c :: rest) || chunkIn p rest

/-- Python's `p in s` substring test. -/
def inStr (p s : String) : Bool := chunkIn p.data s.data

/-- Python's `"_".join`-free `str.title()` after `replace("_", " ")`:
uppercase a letter that follows a non-letter, lowercase a letter that
follows a letter. -/
def titleGo : Bool → List Char → List Char
  | _, [] => []
  | prev, c :: cs =>
      (if c.isAlpha then (if prev then c.toLower else c.toUpper) else c) :: titleGo c.isAlpha cs

def titleCase (s : String) : String := ⟨titleGo false s.data⟩

/-- `str.replace("_", " ")`. -/
def spaceUnd (s : String) : String :=
  ⟨s.data.map (fun c => if c = '_' then ' ' else c)⟩

/-- The pretty label of the numeric-column fallback in
`get_metric_options`: `c.replace("_", " ").title()`. -/
def prettyLabel (c : String) : String := titleCase (spaceUnd c)

/-! ### Association lists (Python `dict` with insertion order) -/

/-- `dict[k] = v`: overwrite in place if the key exists (keeping its
position, as Python dicts do), otherwise append. -/
def assocSet {β : Type} : List (String × β) → String → β → List (String × β)
  | [], k, v => [(k, v)]
  | (k', v') :: rest, k, v =>
      if k' = k then (k, v) :: rest else (k', v') :: assocSet rest k v

/-- `dict.get(k)` / `k in dict` lookup. -/
def alookup {β : Type} (k : String) : List (String × β) → Option β
  | [] => none
  | (k', v) :: rest => if k' = k then some v else alookup k rest

/-! ### The rename heuristics of `load_base_data` (app.py lines 24-45) -/

/-- The rename target the loop in `load_base_data` assigns to one
column `c`.  Each `if` in the Python loop overwrites `rename_map[c]`,
so the last matching rule wins. -/
def ruleTarget (c : String) : Option String :=
  let r : Option String := none
  let r := if c == "entity" || c == "country_name" then some "country" else r
  let r := if c == "overall_aqi_value" || c == "overall_aqi" || c == "aqi" then some "aqi_value" else r
  let r := if c == "overall_aqi_category" then some "aqi_category" else r
  let r := if inStr "pm25" c && inStr "aqi_value" c then some "pm25_aqi_value" else r
  let r := if inStr "pm10" c && inStr "aqi_value" c then some "pm10_aqi_value" else r
  let r := if inStr "no2" c && inStr "aqi_value" c then some "no2_aqi_value" else r
  let r := if (inStr "ozone" c || inStr "o3" c) && inStr "aqi_value" c then some "ozone_aqi_value" else r
  let r := if inStr "co" c && inStr "aqi_value" c && c != "aqi_value" then some "co_aqi_value" else r
  r

/-- The `rename_map` dict built by iterating over the (already
normalized) columns. -/
def buildRenameMap (cols : List String) : List (String × String) :=
  cols.foldl
    (fun m c =>
      match ruleTarget c with
      | some t => assocSet m c t
      | none => m)
    []

/-- `df.rename(columns=m)`: every column label present in the map is
replaced, all others kept. -/
def applyRename (m : List (String × String)) (cols : List String) : List String :=
  cols.map (fun c =>
    match alookup c m with
    | some t => t
    | none => c)

/-- Normalization plus rename, as `load_base_data` applies them to the
column names (the `if rename_map:` guard of line 44 included). -/
def resolveCols (cols : List String) : List String :=
  let n := cols.map normalizeCol
  let m := buildRenameMap n
  if m.isEmpty then n else applyRename m n

/-- Pointwise description of what happens to a single column. -/
def resolveOne (c : String) : String :=
  match ruleTarget (normalizeCol c) with
  | some t => t
  | none => normalizeCol c

/-- The canonical column names of the spec's data model (§3), all of
which are fixpoints of normalization and of the rename rules. -/
def canonicalCols : List String :=
  ["country", "year", "code", "aqi_value", "aqi_category", "pm25",
   "pm25_aqi_value", "pm10_aqi_value", "no2_aqi_value", "co_aqi_value",
   "ozone_aqi_value"]

/-! ### Metric resolution (`get_metric_options`, app.py lines 73-97) -/

/-- A dataframe schema: column names with their "is numeric dtype" flag
(`select_dtypes(include="number")`). -/
structure Schema where
  cols : List (String × Bool)
deriving DecidableEq

def colNames (s : Schema) : List String := s.cols.map Prod.fst

def numericCols (s : Schema) : List String :=
  (s.cols.filter Prod.snd).map Prod.fst

/-- `get_metric_options`: canonical AQI metric labels when present,
otherwise a fallback over every numeric column.  The Python `dict` is
modelled as an insertion-ordered association list. -/
def get_metric_options (s : Schema) : List (String × String) :=
  let m : List (String × String) := []
  let m := if "aqi_value" ∈ colNames s then assocSet m "Overall AQI Value" "aqi_value" else m
  let m := if "pm25_aqi_value" ∈ colNames s then assocSet m "PM2.5 AQI Value" "pm25_aqi_value" else m
  let m := if "pm10_aqi_value" ∈ colNames s then assocSet m "PM10 AQI Value" "pm10_aqi_value" else m
  let m := if "co_aqi_value" ∈ colNames s then assocSet m "CO AQI Value" "co_aqi_value" else m
  let m := if "no2_aqi_value" ∈ colNames s then assocSet m "NO₂ AQI Value" "no2_aqi_value" else m
  let m := if "ozone_aqi_value" ∈ colNames s then assocSet m "O₃ AQI Value" "ozone_aqi_value" else m
  if m.isEmpty then
    (numericCols s).foldl (fun acc c => assocSet acc (prettyLabel c) c) []
  else m

/-- No canonical metric column is present, so the numeric fallback of
`get_metric_options` fires. -/
def noCanonicalMetric (s : Schema) : Prop :=
  "aqi_value" ∉ colNames s ∧ "pm25_aqi_value" ∉ colNames s ∧
  "pm10_aqi_value" ∉ colNames s ∧ "co_aqi_value" ∉ colNames s ∧
  "no2_aqi_value" ∉ colNames s ∧ "ozone_aqi_value" ∉ colNames s

instance (s : Schema) : Decidable (noCanonicalMetric s) := by
  unfold noCanonicalMetric; infer_instance

/-- The map page's metric default (app.py lines 300-304, 328):
`"Overall AQI Value"` when among the option labels, otherwise the first
label; the resulting column is the dict value of that label. -/
def defaultMetricCol (s : Schema) : Option String :=
  let m := get_metric_options s
  match alookup "Overall AQI Value" m with
  | some c => some c
  | none => m.head?.map Prod.snd

/-- Modelled from the spec's words for comparison (§4.2): "fall back to
first remaining numeric column excluding known non-metric fields
(`year`, `code`)".  This is the claimed behavior, not the code's. -/
def specFallbackMetric (s : Schema) : Option String :=
  ((numericCols s).filter (fun c => c != "year" && c != "code")).head?

/-! ### The loaders (app.py lines 9-66) -/

/-- A raw parsed CSV: header labels and rows of cells. -/
structure RawTable where
  header : List String
  rows : List (List String)
deriving DecidableEq

/-- What sits at a path: a parseable table or malformed bytes. -/
inductive FileContent where
  | table (t : RawTable)
  | malformed
deriving DecidableEq

/-- The file system, as a path-indexed association list. -/
abbrev FS := List (String × FileContent)

inductive LoadErr where
  | notFound
  | parseErr
deriving DecidableEq

def basePath : String := "data/raw/global_air_pollution.csv"

def pm25Path : String := "data/raw/pm25-air-pollution.csv"

/-- `pd.read_csv`: `FileNotFoundError` when the path is absent, a parse
error when the content is not delimited tabular text. -/
def readCsv (fs : FS) (path : String) : Except LoadErr RawTable :=
  match alookup path fs with
  | none => .error .notFound
  | some .malformed => .error .parseErr
  | some (.table t) => .ok t

/-- `load_base_data`: read, normalize column names, apply the rename
heuristics.  No exception handling, so read errors propagate. -/
def load_base_data (fs : FS) : Except LoadErr RawTable :=
  (readCsv fs basePath).map (fun t => { t with header := resolveCols t.header })

/-- `load_pm25_data`: read inside `try`, returning `None` on
`FileNotFoundError`; normalize column names only (no rename step). -/
def load_pm25_data (fs : FS) : Except LoadErr (Option RawTable) :=
  match alookup pm25Path fs with
  | none => .ok none
  | some .malformed => .error .parseErr
  | some (.table t) => .ok (some { t with header := t.header.map normalizeCol })

/-! ### Rows, filters and group-by-mean (map page, app.py lines 330-378) -/

/-- One record of the AQI dataset, restricted to the fields the
filter/aggregate pipeline touches: country, AQI category, and the
numeric columns by name.  `none` models a missing value (NaN). -/
structure Row where
  country : Option String
  category : Option String
  nums : List (String × Option ℚ)
deriving DecidableEq

/-- `row[c]` for a numeric column: missing column and NaN cell both
read as missing. -/
def getNum (r : Row) (c : String) : Option ℚ :=
  match alookup c r.nums with
  | some v => v
  | none => none

/-- String comparison by code points (Python's `sorted` on `str`). -/
def clistLe : List Char → List Char → Bool
  | [], _ => true
  | _ :: _, [] => false
  | a :: as, b :: bs => if a = b then clistLe as bs else decide (a.toNat < b.toNat)

def strLeB (a b : String) : Bool := clistLe a.data b.data

def insertSorted {α : Type} (le : α → α → Bool) (x : α) : List α → List α
  | [] => [x]
  | y :: ys => if le x y then x :: y :: ys else y :: insertSorted le x ys

/-- Insertion sort; used for `sorted(...)` and for pandas' sorted
group keys. -/
def sortBy {α : Type} (le : α → α → Bool) : List α → List α
  | [] => []
  | x :: xs => insertSorted le x (sortBy le xs)

/-- `sorted(df["aqi_category"].dropna().unique().tolist())`
(app.py line 333). -/
def allCats (df : List Row) : List String :=
  sortBy strLeB (df.filterMap Row.category).dedup

/-- `if selected_cats: df_map = df_map[df_map["aqi_category"].isin(selected_cats)]`
(app.py lines 365-366).  An empty (or `None`) selection skips the
filter; `isin` is false on a missing category. -/
def catFilter (df : List Row) (sel : List String) : List Row :=
  if sel.isEmpty then df
  else df.filter (fun r =>
    match r.category with
    | some c => decide (c ∈ sel)
    | none => false)

/-- `if min_threshold is not None and "aqi_value" in df_map.columns:
df_map = df_map[df_map["aqi_value"] >= min_threshold]` (lines 367-368).
A NaN comparison is false, so NaN rows are dropped. -/
def thrFilter (df : List Row) (thr : Option ℚ) (hasAqi : Bool) : List Row :=
  match thr with
  | none => df
  | some t =>
      if hasAqi then
        df.filter (fun r =>
          match getNum r "aqi_value" with
          | some v => decide (t ≤ v)
          | none => false)
      else df

/-- The two map-page predicates in sequence. -/
def applyMapFilters (df : List Row) (sel : List String) (thr : Option ℚ)
    (hasAqi : Bool) : List Row :=
  thrFilter (catFilter df sel) thr hasAqi

/-- Mean of the non-missing values of a column (pandas `mean`, which
skips NaN); `none` when there is no non-missing value. -/
def meanQ (xs : List ℚ) : Option ℚ :=
  if xs.isEmpty then none else some (xs.sum / xs.length)

/-- The group keys of `groupby("country")`: the distinct non-missing
countries, sorted (pandas sorts group keys and drops NaN keys). -/
def aggKeys (df : List Row) : List String :=
  sortBy strLeB (df.filterMap Row.country).dedup

/-- The non-missing metric values of one country's group. -/
def groupVals (df : List Row) (metric : String) (k : String) : List ℚ :=
  ((df.filter (fun r => decide (r.country = some k))).map (fun r => getNum r metric)).filterMap id

/-- `df.groupby("country", as_index=False)[metric].mean().dropna()`
(app.py line 375): one aggregated row per group with at least one
non-missing value; all-NaN groups are dropped by `.dropna()`. -/
def groupbyMeanDropna (df : List Row) (metric : String) : List (String × ℚ) :=
  (aggKeys df).filterMap (fun k =>
    (meanQ (groupVals df metric k)).map (fun m => (k, m)))

/-! ### The PM2.5 column guessing (app.py lines 579-586 and 879-885) -/

def deepDive_pmCountryCol (cols : List String) : Option String :=
  if "country" ∈ cols then some "country" else cols.get? 0

def deepDive_pmYearCol (cols : List String) : Option String :=
  if "year" ∈ cols then some "year" else cols.get? 1

def pm25_pmCountryCol (cols : List String) : Option String :=
  if "country" ∈ cols then some "country" else cols.get? 0

def pm25_pmYearCol (cols : List String) : Option String :=
  if "year" ∈ cols then some "year" else cols.get? 1

/-- `pm_value_col` on the deep-dive page: the first numeric column
after removing the year column (only if it is numeric); `None` when no
numeric column remains. -/
def deepDive_pmValueCol (s : Schema) : Option String :=
  match deepDive_pmYearCol (colNames s) with
  | none => none
  | some y =>
      let n := numericCols s
      let n := if y ∈ n then n.erase y else n
      n.head?

/-! ### Data Lab cleaning (app.py lines 677-760) and frame heaps

Pandas frames are heap objects: `df_clean = base_df.copy()` allocates a
new frame, `df_clean[cols] = ...` writes the frame in place, and
`df_clean = df_clean[...]` rebinds the name to a freshly allocated
frame.  The heap is a list of frames addressed by position; the base
frame sits at address 0. -/

/-- A full dataframe for the Data Lab: its numeric column set plus
its rows. -/
structure DF where
  numCols : List String
  rows : List Row
deriving DecidableEq

def emptyDF : DF := ⟨[], []⟩

inductive MissingStrategy where
  | leave
  | dropAny
  | fillMean
  | fillMedian
deriving DecidableEq

inductive NormChoice where
  | nonorm
  | minmax
  | zscore
deriving DecidableEq

/-- The non-missing observations of a numeric column. -/
def colObs (d : DF) (c : String) : List ℚ :=
  (d.rows.map (fun r => getNum r c)).filterMap id

def ratLeB (a b : ℚ) : Bool := decide (a ≤ b)

/-- pandas `median` (skipna): middle element, or average of the two
middle elements, of the sorted non-missing values. -/
def medianQ (xs : List ℚ) : Option ℚ :=
  let s := sortBy ratLeB xs
  let n := s.length
  if n = 0 then none
  else if n % 2 = 1 then some (s.getD (n / 2) 0)
  else some ((s.getD (n / 2 - 1) 0 + s.getD (n / 2) 0) / 2)

/-- pandas `std` squared: the sample variance (`ddof=1`); NaN when
fewer than two observations. -/
def sampleVar (xs : List ℚ) : Option ℚ :=
  if xs.length < 2 then none
  else
    let μ := xs.sum / xs.length
    some ((xs.map (fun x => (x - μ) ^ 2)).sum / ((xs.length : ℚ) - 1))

def minQ : List ℚ → Option ℚ
  | [] => none
  | x :: xs => some ((minQ xs).elim x (min x))

def maxQ : List ℚ → Option ℚ
  | [] => none
  | x :: xs => some ((maxQ xs).elim x (max x))

/-- `df_clean.dropna()`: drop every row with any missing value. -/
def dropAnyMissing (d : DF) : DF :=
  { d with rows := d.rows.filter (fun r =>
      r.country.isSome && r.category.isSome &&
      d.numCols.all (fun c => (getNum r c).isSome)) }

/-- `df_clean[num_cols] = df_clean[num_cols].apply(lambda col:
col.fillna(f(col)))`: rebuild the numeric columns, replacing each
missing cell by the column's fill value (itself possibly missing). -/
def fillColumns (d : DF) (fv : String → Option ℚ) : DF :=
  { d with rows := d.rows.map (fun r =>
      { r with nums := d.numCols.map (fun c =>
          (c, match getNum r c with
              | some v => some v
              | none => fv c)) }) }

/-- Append a derived numeric column computed from each row. -/
def addNumCol (d : DF) (name : String) (f : Row → Option ℚ) : DF :=
  { numCols := d.numCols ++ [name],
    rows := d.rows.map (fun r => { r with nums := r.nums ++ [(name, f r)] }) }

/-- numpy's default linear-interpolation percentile on the sorted
values. -/
def percentileQ (xs : List ℚ) (p : Nat) : ℚ :=
  let s := sortBy ratLeB xs
  let n := s.length
  let pos : ℚ := (p : ℚ) * ((n : ℚ) - 1) / 100
  let lo := pos.floor.toNat
  let hi := pos.ceil.toNat
  let a := s.getD lo 0
  let b := s.getD hi 0
  a + (pos - (lo : ℚ)) * (b - a)

/-- `df_clean[(df_clean[m] >= q_low) & (df_clean[m] <= q_high)]`:
NaN comparisons are false, so NaN rows are dropped. -/
def pctFilter (d : DF) (m : String) (ql qh : ℚ) : DF :=
  { d with rows := d.rows.filter (fun r =>
      match getNum r m with
      | some v => ratLeB ql v && ratLeB v qh
      | none => false) }

/-- The map page as heap operations (app.py lines 363-375):
`df_map = base_df.copy()` allocates, each filter rebinds to a new
frame, and aggregation only reads.  Returns the final heap and the
aggregated result. -/
def runMapPageH (base : List Row) (sel : List String) (thr : Option ℚ)
    (hasAqi : Bool) (metric : String) :
    List (List Row) × List (String × ℚ) :=
  let h0 : List (List Row) := [base]
  let h1 := h0 ++ [h0.getD 0 []]
  let i1 : Nat := 1
  let h2 := h1 ++ [catFilter (h1.getD i1 []) sel]
  let i2 := h1.length
  let h3 := h2 ++ [thrFilter (h2.getD i2 []) thr hasAqi]
  let i3 := h2.length
  (h3, groupbyMeanDropna (h3.getD i3 []) metric)

/-- The Data Lab cleaning pipeline (app.py lines 728-760) as heap
operations.  `sq` stands for the square root used inside pandas `std`
(the only floating-point-native step).  `none` models the exception
`np.percentile` raises on an empty (all-NaN) column. -/
def runDataLab (base : DF) (strat : MissingStrategy) (baseMetric : String)
    (norm : NormChoice) (sq : ℚ → ℚ) (pLow pHigh : Nat) :
    Option (List DF × Nat) :=
  let h0 : List DF := [base]
  let h1 := h0 ++ [h0.getD 0 emptyDF]
  let i1 : Nat := 1
  let step1 : List DF × Nat :=
    match strat with
    | .leave => (h1, i1)
    | .dropAny => (h1 ++ [dropAnyMissing (h1.getD i1 emptyDF)], h1.length)
    | .fillMean =>
        let d := h1.getD i1 emptyDF
        (h1.set i1 (fillColumns d (fun c => meanQ (colObs d c))), i1)
    | .fillMedian =>
        let d := h1.getD i1 emptyDF
        (h1.set i1 (fillColumns d (fun c => medianQ (colObs d c))), i1)
  let h2 := step1.1
  let i2 := step1.2
  let step2 : List DF × Nat :=
    match norm with
    | .nonorm => (h2, i2)
    | .minmax =>
        let d := h2.getD i2 emptyDF
        let xs := colObs d baseMetric
        match minQ xs, maxQ xs with
        | some mn, some mx =>
            if mn < mx then
              (h2.set i2 (addNumCol d (baseMetric ++ "_scaled")
                (fun r => (getNum r baseMetric).map (fun v => (v - mn) / (mx - mn)))), i2)
            else (h2, i2)
        | _, _ => (h2, i2)
    | .zscore =>
        let d := h2.getD i2 emptyDF
        let xs := colObs d baseMetric
        match sampleVar xs with
        | some v =>
            let μ := xs.sum / xs.length
            let s := sq v
            if 0 < s then
              (h2.set i2 (addNumCol d (baseMetric ++ "_z")
                (fun r => (getNum r baseMetric).map (fun x => (x - μ) / s))), i2)
            else (h2, i2)
        | none => (h2, i2)
  let h3 := step2.1
  let i3 := step2.2
  if pLow > 0 || pHigh < 100 then
    let d := h3.getD i3 emptyDF
    let xs := colObs d baseMetric
    if xs.isEmpty then none
    else
      let ql := percentileQ xs pLow
      let qh := percentileQ xs pHigh
      some (h3 ++ [pctFilter d baseMetric ql qh], h3.length)
  else some (h3, i3)

/-! ### Helper lemmas -/

theorem map_congr_mem {α β : Type} {f g : α → β} :
    ∀ (l : List α), (∀ a ∈ l, f a = g a) → l.map f = l.map g
  | [], _ => rfl
  | a :: as, h => by
      simp only [List.map_cons]
      rw [h a (by simp), map_congr_mem as (fun x hx => h x (by simp [hx]))]

theorem getD_map_lt {α β : Type} (f : α → β) :
    ∀ (l : List α) (i : Nat), i < l.length → ∀ (d : α) (e : β),
      (l.map f).getD i e = f (l.getD i d)
  | [], i, h, _, _ => absurd h (by simp)
  | a :: as, 0, _, d, e => rfl
  | a :: as, i + 1, h, d, e => getD_map_lt f as i (by simpa using h) d e

theorem alookup_assocSet_self {β : Type} (k : String) (v : β) :
    ∀ (m : List (String × β)), alookup k (assocSet m k v) = some v
  | [] => by simp [assocSet, alookup]
  | (k', v') :: rest => by
      by_cases h : k' = k
      · simp [assocSet, alookup, h]
      · simp only [assocSet, if_neg h, alookup]
        exact alookup_assocSet_self k v rest

theorem alookup_assocSet_ne {β : Type} (k c : String) (v : β) (hne : c ≠ k) :
    ∀ (m : List (String × β)), alookup c (assocSet m k v) = alookup c m
  | [] => by
      simp only [assocSet, alookup]
      rw [if_neg (Ne.symm hne)]
  | (k', v') :: rest => by
      by_cases h : k' = k
      · subst h
        simp only [assocSet, if_pos rfl, alookup]
        rw [if_neg (Ne.symm hne), if_neg (Ne.symm hne)]
      · simp only [assocSet, if_neg h, alookup]
        by_cases h2 : k' = c
        · rw [if_pos h2, if_pos h2]
        · rw [if_neg h2, if_neg h2]
          exact alookup_assocSet_ne k c v hne rest

/-- Lookup in the partially built `rename_map`: a column that occurred
in the processed part with a matching rule maps to its rule target. -/
theorem alookup_renameFold :
    ∀ (rest : List String) (acc : List (String × String)) (c : String),
    alookup c (rest.foldl (fun m x =>
        match ruleTarget x with
        | some t => assocSet m x t
        | none => m) acc) =
      if c ∈ rest ∧ (ruleTarget c).isSome then ruleTarget c else alookup c acc := by
  intro rest
  induction rest with
  | nil => intro acc c; simp
  | cons x xs ih =>
      intro acc c
      simp only [List.foldl_cons]
      rw [ih]
      by_cases hmem : c ∈ xs ∧ (ruleTarget c).isSome
      · rw [if_pos hmem, if_pos ⟨List.mem_cons_of_mem x hmem.1, hmem.2⟩]
      · rw [if_neg hmem]
        by_cases hx : c = x
        · subst hx
          cases ht : ruleTarget c with
          | none => simp
          | some t =>
              by_cases hx2 : c ∈ xs <;>
                simp [hx2, alookup_assocSet_self]
        · have hcond : ¬(c ∈ x :: xs ∧ (ruleTarget c).isSome) := by
            intro hand
            rcases List.mem_cons.mp hand.1 with h1 | h1
            · exact hx h1
            · exact hmem ⟨h1, hand.2⟩
          rw [if_neg hcond]
          cases ht : ruleTarget x with
          | none => rfl
          | some t => exact alookup_assocSet_ne x c t hx acc

theorem alookup_buildRenameMap {cols : List String} {c : String} (h : c ∈ cols) :
    alookup c (buildRenameMap cols) = ruleTarget c := by
  unfold buildRenameMap
  rw [alookup_renameFold cols [] c]
  cases ht : ruleTarget c with
  | none => rw [if_neg (fun hand => by simp [ht] at hand)]; rfl
  | some t => rw [if_pos ⟨h, by simp [ht]⟩]

/-- The rename step acts on each column independently: `resolveCols`
is the pointwise map of `resolveOne`. -/
theorem resolveCols_eq_map (cols : List String) :
    resolveCols cols = cols.map resolveOne := by
  unfold resolveCols
  by_cases hemp : (buildRenameMap (cols.map normalizeCol)).isEmpty
  · simp only [hemp, if_true]
    refine (map_congr_mem cols ?_).symm
    intro c hc
    unfold resolveOne
    have hmem : normalizeCol c ∈ cols.map normalizeCol := List.mem_map_of_mem _ hc
    have := alookup_buildRenameMap hmem
    rw [List.isEmpty_iff] at hemp
    rw [hemp] at this
    simp only [alookup] at this
    rw [← this]
  · simp only [hemp, if_false]
    unfold applyRename
    rw [List.map_map]
    refine map_congr_mem cols ?_
    intro c hc
    have hmem : normalizeCol c ∈ cols.map normalizeCol := List.mem_map_of_mem _ hc
    simp only [Function.comp_apply]
    rw [alookup_buildRenameMap hmem]
    rfl

theorem mem_insertSorted {α : Type} (le : α → α → Bool) (x a : α) :
    ∀ (l : List α), a ∈ insertSorted le x l ↔ a = x ∨ a ∈ l
  | [] => by simp [insertSorted]
  | y :: ys => by
      unfold insertSorted
      by_cases h : le x y = true
      · simp [h]
      · rw [if_neg h]
        simp only [List.mem_cons, mem_insertSorted le x a ys]
        tauto

theorem mem_sortBy {α : Type} (le : α → α → Bool) (a : α) :
    ∀ (l : List α), a ∈ sortBy le l ↔ a ∈ l
  | [] => Iff.rfl
  | x :: xs => by
      unfold sortBy
      rw [mem_insertSorted, mem_sortBy le a xs]
      simp

theorem filter_eq_self_of {α : Type} (p : α → Bool) :
    ∀ (l : List α), (∀ a ∈ l, p a = true) → l.filter p = l
  | [], _ => rfl
  | a :: as, h => by
      simp only [List.filter_cons, h a (by simp), if_true]
      rw [filter_eq_self_of p as (fun x hx => h x (by simp [hx]))]

theorem assocSet_append {β : Type} (k : String) (v : β) :
    ∀ (acc : List (String × β)), k ∉ acc.map Prod.fst →
      assocSet acc k v = acc ++ [(k, v)]
  | [], _ => rfl
  | (k', v') :: rest, h => by
      have hk : k' ≠ k := by
        intro he; exact h (by simp [he])
      simp only [assocSet, if_neg hk, List.cons_append, List.cons.injEq, true_and]
      exact assocSet_append k v rest (fun hm => h (by simp [hm]))

/-- Folding `dict[label] = value` over values with pairwise-distinct
fresh labels just appends the pairs in order. -/
theorem foldl_assocSet_fresh {β : Type} (f : β → String) :
    ∀ (cs : List β) (acc : List (String × β)),
      (acc.map Prod.fst ++ cs.map f).Nodup →
      cs.foldl (fun a c => assocSet a (f c) c) acc = acc ++ cs.map (fun c => (f c, c))
  | [], acc, _ => by simp
  | c :: cs, acc, h => by
      have hfresh : f c ∉ acc.map Prod.fst := by
        rw [List.map_cons, List.nodup_append] at h
        intro hmem
        exact h.2.2 hmem (List.mem_cons_self _ _)
      simp only [List.foldl_cons]
      rw [assocSet_append (f c) c acc hfresh]
      have h2 : ((acc ++ [(f c, c)]).map Prod.fst ++ cs.map f).Nodup := by
        simp only [List.map_append, List.map_cons, List.map_nil, List.append_assoc,
          List.singleton_append]
        simpa using h
      rw [foldl_assocSet_fresh f cs (acc ++ [(f c, c)]) h2]
      simp

/-! ### Claims -/

/-- C1 (counterexample): the claim "the first match wins and later
matching columns stay unrenamed" is false: with raw columns
`["entity", "country_name"]`, both match canonical `country` and BOTH
are renamed, yielding duplicate `country` columns — not
`["country", "country_name"]`. -/
theorem claim_C1_counterexample :
    resolveCols ["entity", "country_name"] = ["country", "country"] ∧
    resolveCols ["entity", "country_name"] ≠ ["country", "country_name"] := by
  decide

/-- C1 (amended): the rename map of `load_base_data` acts pointwise:
EVERY raw column whose normalized name matches a rule is renamed to
that rule's canonical target, regardless of earlier columns matching
the same canonical field; no later match is left unrenamed. -/
theorem claim_C1_amended : ∀ (cols : List String) (i : Nat) (t : String),
    i < cols.length →
    ruleTarget (normalizeCol (cols.getD i "")) = some t →
    (resolveCols cols).getD i "" = t := by
  intro cols i t hi hr
  rw [resolveCols_eq_map, getD_map_lt resolveOne cols i hi ""]
  unfold resolveOne
  rw [hr]

/-- C1 witness: the second matching column `country_name` is also
renamed to `country`. -/
theorem claim_C1_witness :
    (resolveCols ["entity", "country_name"]).getD 1 "" = "country" :=
  claim_C1_amended ["entity", "country_name"] 1 "country" (by decide) (by decide)

/-- C7: schema resolution is idempotent on already-canonical column
names: normalization plus rename leaves them unchanged, so a second
application is a no-op and the rename mapping is rebuilt identically. -/
theorem claim_C7 : ∀ (cols : List String),
    (∀ c ∈ cols, c ∈ canonicalCols) →
    resolveCols (resolveCols cols) = resolveCols cols ∧
    resolveCols cols = cols ∧
    buildRenameMap ((resolveCols cols).map normalizeCol) =
      buildRenameMap (cols.map normalizeCol) := by
  intro cols h
  have key : ∀ c ∈ canonicalCols, resolveOne c = c := by decide
  have h2 : resolveCols cols = cols := by
    rw [resolveCols_eq_map]
    have hpt : ∀ c ∈ cols, resolveOne c = id c := fun c hc => key c (h c hc)
    rw [map_congr_mem cols hpt, List.map_id]
  refine ⟨?_, h2, by rw [h2]⟩
  rw [h2]
  exact h2

/-- C7 witness at a concrete canonical schema. -/
theorem claim_C7_witness :
    resolveCols (resolveCols ["country", "year", "aqi_value", "pm25_aqi_value"]) =
      resolveCols ["country", "year", "aqi_value", "pm25_aqi_value"] ∧
    resolveCols ["country", "year", "aqi_value", "pm25_aqi_value"] =
      ["country", "year", "aqi_value", "pm25_aqi_value"] :=
  ⟨(claim_C7 ["country", "year", "aqi_value", "pm25_aqi_value"] (by decide)).1,
   (claim_C7 ["country", "year", "aqi_value", "pm25_aqi_value"] (by decide)).2.1⟩

/-- C8: any case/spacing variant of "Country" (a name that strips and
lowercases to `country`) is normalized to `country` and the resolver
keeps it as the canonical `country` field. -/
theorem claim_C8 : ∀ (cols : List String) (c : String), c ∈ cols →
    lowerStr (stripStr c) = "country" →
    resolveOne c = "country" ∧ "country" ∈ resolveCols cols := by
  intro cols c hc h
  have hn : normalizeCol c = "country" := by
    unfold normalizeCol
    rw [h]
    decide
  have h1 : resolveOne c = "country" := by
    unfold resolveOne
    rw [hn]
    decide
  refine ⟨h1, ?_⟩
  rw [resolveCols_eq_map]
  have := List.mem_map_of_mem resolveOne hc
  rwa [h1] at this

/-- C8 witness: `"COUNTRY "` resolves to canonical `country`. -/
theorem claim_C8_witness :
    resolveOne "COUNTRY " = "country" ∧
    "country" ∈ resolveCols ["COUNTRY ", "aqi"] :=
  claim_C8 ["COUNTRY ", "aqi"] "COUNTRY " (by decide) (by decide)

/-- A dataset with a missing AQI category: the full-category filter
drops its second record, changing the group mean. -/
def exDfC2bad : List Row :=
  [⟨some "X", some "Good", [("v", some 10)]⟩,
   ⟨some "X", none, [("v", some 20)]⟩]

/-- C2 (counterexample): filtering by the full (dropna'd) category set
is NOT always a no-op before aggregation: a record whose category is
missing is dropped by `isin`, so the group mean changes (10 vs 15). -/
theorem claim_C2_counterexample :
    groupbyMeanDropna (catFilter exDfC2bad (allCats exDfC2bad)) "v" ≠
      groupbyMeanDropna exDfC2bad "v" := by
  have hflt : catFilter exDfC2bad (allCats exDfC2bad) =
      [⟨some "X", some "Good", [("v", some 10)]⟩] := by decide
  have hkeys : aggKeys [(⟨some "X", some "Good", [("v", some 10)]⟩ : Row)] = ["X"] := by
    decide
  have hgv : groupVals [(⟨some "X", some "Good", [("v", some 10)]⟩ : Row)] "v" "X" =
      [10] := by decide
  have hkeys2 : aggKeys exDfC2bad = ["X"] := by decide
  have hgv2 : groupVals exDfC2bad "v" "X" = [10, 20] := by decide
  have h1 : groupbyMeanDropna (catFilter exDfC2bad (allCats exDfC2bad)) "v" =
      [("X", 10)] := by
    rw [hflt]
    unfold groupbyMeanDropna
    rw [hkeys]
    norm_num [hgv, meanQ, List.filterMap_cons, List.filterMap_nil]
  have h2 : groupbyMeanDropna exDfC2bad "v" = [("X", 15)] := by
    unfold groupbyMeanDropna
    rw [hkeys2]
    norm_num [hgv2, meanQ, List.filterMap_cons, List.filterMap_nil]
    simp
  rw [h1, h2]
  decide

/-- C2 (amended): when every record's category is present, filtering by
the full category set keeps every record, so aggregating after the
filter equals aggregating without it. -/
theorem claim_C2_amended : ∀ (df : List Row) (metric : String),
    (∀ r ∈ df, r.category.isSome) →
    groupbyMeanDropna (catFilter df (allCats df)) metric =
      groupbyMeanDropna df metric := by
  intro df metric h
  have hid : catFilter df (allCats df) = df := by
    unfold catFilter
    by_cases he : (allCats df).isEmpty = true
    · rw [if_pos he]
    · rw [if_neg he]
      apply filter_eq_self_of
      intro r hr
      cases hc : r.category with
      | none => exact absurd (h r hr) (by simp [hc])
      | some c =>
          simp only []
          apply decide_eq_true
          unfold allCats
          rw [mem_sortBy, List.mem_dedup]
          exact List.mem_filterMap.mpr ⟨r, hr, hc⟩
  rw [hid]

/-- C2 witness at a dataset with no missing categories. -/
theorem claim_C2_witness :
    groupbyMeanDropna
        (catFilter
          [(⟨some "A", some "Good", [("v", some 1)]⟩ : Row),
           ⟨some "B", some "Bad", [("v", some 3)]⟩]
          (allCats
            [⟨some "A", some "Good", [("v", some 1)]⟩,
             ⟨some "B", some "Bad", [("v", some 3)]⟩])) "v" =
      groupbyMeanDropna
        [(⟨some "A", some "Good", [("v", some 1)]⟩ : Row),
         ⟨some "B", some "Bad", [("v", some 3)]⟩] "v" :=
  claim_C2_amended _ "v" (by decide)

/-- C5: per-group mean over the non-missing values only, and all-NaN
groups are dropped by `.dropna()`: a key of `groupby("country")`
appears in the aggregate with value `sum/count` over its non-missing
metric values when it has any, and not at all otherwise. -/
theorem claim_C5 : ∀ (df : List Row) (metric k : String),
    k ∈ aggKeys df →
    (groupVals df metric k ≠ [] →
      (k, (groupVals df metric k).sum / ((groupVals df metric k).length : ℚ)) ∈
        groupbyMeanDropna df metric) ∧
    (groupVals df metric k = [] →
      ∀ m : ℚ, (k, m) ∉ groupbyMeanDropna df metric) := by
  intro df metric k hk
  constructor
  · intro hne
    unfold groupbyMeanDropna
    apply List.mem_filterMap.mpr
    refine ⟨k, hk, ?_⟩
    unfold meanQ
    rw [if_neg (by simpa using hne)]
    rfl
  · intro hemp m hmem
    obtain ⟨a, _, hfa⟩ := List.mem_filterMap.mp hmem
    cases hq : meanQ (groupVals df metric a) with
    | none => rw [hq] at hfa; simp at hfa
    | some v =>
        rw [hq] at hfa
        have hak : a = k := by
          have := congrArg (Option.map Prod.fst) hfa
          simpa using this
        rw [hak, hemp] at hq
        simp [meanQ] at hq

/-- The spec's own example group for C5: values `[10, NaN, 20]` for
country A, and an all-NaN group B. -/
def exDfC5 : List Row :=
  [⟨some "A", none, [("v", some 10)]⟩,
   ⟨some "A", none, [("v", none)]⟩,
   ⟨some "A", none, [("v", some 20)]⟩,
   ⟨some "B", none, [("v", none)]⟩]

/-- C5 witness: group `[10, NaN, 20]` aggregates to 15 and the all-NaN
group B is dropped. -/
theorem claim_C5_witness :
    ("A", (15 : ℚ)) ∈ groupbyMeanDropna exDfC5 "v" ∧
    ("B", (0 : ℚ)) ∉ groupbyMeanDropna exDfC5 "v" := by
  constructor
  · have e : groupVals exDfC5 "v" "A" = [10, 20] := by decide
    have h := (claim_C5 exDfC5 "v" "A" (by decide)).1 (by simp [e])
    rw [e] at h
    norm_num at h
    exact h
  · exact (claim_C5 exDfC5 "v" "B" (by decide)).2 (by decide) 0

/-- C6: when the map-page filters leave no record, aggregation returns
the empty result (the operation is total — there is no error value in
its type). -/
theorem claim_C6 : ∀ (df : List Row) (sel : List String) (thr : Option ℚ)
    (hasAqi : Bool) (metric : String),
    applyMapFilters df sel thr hasAqi = [] →
    groupbyMeanDropna (applyMapFilters df sel thr hasAqi) metric = [] := by
  intro df sel thr hasAqi metric h
  rw [h]
  rfl

/-- C6 witness: a category filter that matches nothing yields an empty
aggregate. -/
theorem claim_C6_witness :
    groupbyMeanDropna
      (applyMapFilters [(⟨some "X", some "Bad", [("aqi_value", some 5)]⟩ : Row)]
        ["Good"] none true) "aqi_value" = [] :=
  claim_C6 [⟨some "X", some "Bad", [("aqi_value", some 5)]⟩]
    ["Good"] none true "aqi_value" (by decide)

/-- C3 (counterexample): the claim says a missing file is signalled as
`NotFoundError` "not by any other result"; but the PM2.5 loader
catches `FileNotFoundError` and returns `None` — a successful result
carrying no dataset, not an error. -/
theorem claim_C3_counterexample :
    load_pm25_data ([] : FS) = Except.ok none ∧
    (Except.ok none : Except LoadErr (Option RawTable)) ≠ Except.error LoadErr.notFound ∧
    (Except.ok none : Except LoadErr (Option RawTable)) ≠ Except.error LoadErr.parseErr := by
  refine ⟨rfl, ?_, ?_⟩ <;> intro h <;> exact Except.noConfusion h

/-- C3 (amended): the base loader fails with `NotFoundError` on an
absent file and `ParseError` on malformed content; the PM2.5 loader
returns `ok none` (no dataset, no error) on an absent file and
`ParseError` on malformed content; a parseable table loads as a
Dataset. -/
theorem claim_C3_amended : ∀ fs : FS,
    (alookup basePath fs = none → load_base_data fs = Except.error LoadErr.notFound) ∧
    (alookup basePath fs = some FileContent.malformed →
      load_base_data fs = Except.error LoadErr.parseErr) ∧
    (∀ t, alookup basePath fs = some (FileContent.table t) →
      load_base_data fs = Except.ok { t with header := resolveCols t.header }) ∧
    (alookup pm25Path fs = none → load_pm25_data fs = Except.ok none) ∧
    (alookup pm25Path fs = some FileContent.malformed →
      load_pm25_data fs = Except.error LoadErr.parseErr) ∧
    (∀ t, alookup pm25Path fs = some (FileContent.table t) →
      load_pm25_data fs = Except.ok (some { t with header := t.header.map normalizeCol })) := by
  intro fs
  refine ⟨?_, ?_, fun t => ?_, ?_, ?_, fun t => ?_⟩ <;>
    intro h <;>
    simp [load_base_data, load_pm25_data, readCsv, h, Except.map]

/-- C3 witness at concrete file systems. -/
theorem claim_C3_witness :
    load_base_data ([] : FS) = Except.error LoadErr.notFound ∧
    load_pm25_data ([] : FS) = Except.ok none ∧
    load_base_data [(basePath, FileContent.malformed)] = Except.error LoadErr.parseErr ∧
    load_pm25_data [(pm25Path, FileContent.malformed)] = Except.error LoadErr.parseErr :=
  ⟨(claim_C3_amended []).1 rfl,
   (claim_C3_amended []).2.2.2.1 rfl,
   (claim_C3_amended [(basePath, FileContent.malformed)]).2.1 (by decide),
   (claim_C3_amended [(pm25Path, FileContent.malformed)]).2.2.2.2.1 (by decide)⟩

/-- The schema of C4's counterexample: only numeric columns `year` and
`foo`, no canonical metric column. -/
def exSchemaYear : Schema := ⟨[("year", true), ("foo", true)]⟩

/-- A PM2.5-style schema with a numeric `code` column first: the
deep-dive value-column guess removes only the year column. -/
def exSchemaCode : Schema := ⟨[("code", true), ("year", true), ("val", true)]⟩

/-- C4 (counterexample): with numeric columns `["year", "foo"]` and no
canonical match, the code's default resolved metric is `year` itself —
the spec's "first numeric column excluding `year` and `code`" would be
`foo`.  Likewise on the deep-dive page: with numeric columns
`["code", "year", "val"]` the guessed value column is `code`, where
the spec's rule would give `val`. -/
theorem claim_C4_counterexample :
    defaultMetricCol exSchemaYear = some "year" ∧
    specFallbackMetric exSchemaYear = some "foo" ∧
    defaultMetricCol exSchemaYear ≠ specFallbackMetric exSchemaYear ∧
    deepDive_pmValueCol exSchemaCode = some "code" ∧
    specFallbackMetric exSchemaCode = some "val" ∧
    deepDive_pmValueCol exSchemaCode ≠ specFallbackMetric exSchemaCode := by
  decide

/-- C4 (amended): when no canonical metric column is present, the
fallback of `get_metric_options` offers ALL numeric columns in order —
it does not exclude `year` or `code` — and (when the `Overall AQI
Value` label is absent, as it is whenever labels are distinct pretty
prints) the default resolved metric is simply the FIRST numeric
column.  The deep-dive `pm_value_col` guess removes only the resolved
year column from the numeric columns (and only when that column is
numeric) before taking the first — it does not exclude `code`. -/
theorem claim_C4_amended : ∀ s : Schema,
    noCanonicalMetric s →
    ((numericCols s).map prettyLabel).Nodup →
    ((get_metric_options s).map Prod.snd = numericCols s ∧
     (alookup "Overall AQI Value" (get_metric_options s) = none →
        defaultMetricCol s = (numericCols s).head?) ∧
     (∀ y, deepDive_pmYearCol (colNames s) = some y →
        deepDive_pmValueCol s =
          (if y ∈ numericCols s then (numericCols s).erase y else numericCols s).head?)) := by
  intro s hnc hnd
  obtain ⟨h1, h2, h3, h4, h5, h6⟩ := hnc
  have hm : get_metric_options s =
      (numericCols s).map (fun c => (prettyLabel c, c)) := by
    unfold get_metric_options
    simp only [if_neg h1, if_neg h2, if_neg h3, if_neg h4, if_neg h5, if_neg h6,
      List.isEmpty_nil, if_true]
    rw [foldl_assocSet_fresh prettyLabel (numericCols s) [] (by simpa using hnd)]
    rfl
  refine ⟨?_, ?_, ?_⟩
  · rw [hm, List.map_map]
    have : (Prod.snd ∘ fun c => (prettyLabel c, c)) = id := rfl
    rw [this, List.map_id]
  · intro hlook
    rw [hm] at hlook
    unfold defaultMetricCol
    simp only [hm, hlook]
    cases hn : numericCols s with
    | nil => rfl
    | cons x xs => rfl
  · intro y hy
    unfold deepDive_pmValueCol
    rw [hy]

/-- C4 witness: the fallback lists year and foo, in order, the default
metric is `year`, and on the `code`-first schema the deep-dive value
column is `code`. -/
theorem claim_C4_witness :
    (get_metric_options exSchemaYear).map Prod.snd = numericCols exSchemaYear ∧
    defaultMetricCol exSchemaYear = (numericCols exSchemaYear).head? ∧
    deepDive_pmValueCol exSchemaCode = some "code" :=
  ⟨(claim_C4_amended exSchemaYear (by decide) (by decide)).1,
   (claim_C4_amended exSchemaYear (by decide) (by decide)).2.1 (by decide),
   by
     have h := (claim_C4_amended exSchemaCode (by decide) (by decide)).2.2
       "year" (by decide)
     rw [h]
     decide⟩

/-- C9: neither the map page's filter/aggregate pipeline nor the Data
Lab cleaning pipeline mutates the source dataframe: both copy it
first, so after the pipeline runs the heap still holds the original
frame at the base address. -/
theorem claim_C9 : ∀ (baseR : List Row) (sel : List String) (thr : Option ℚ)
    (hasAqi : Bool) (metric : String) (base : DF) (strat : MissingStrategy)
    (bm : String) (norm : NormChoice) (sq : ℚ → ℚ) (pl ph : Nat)
    (res : List DF × Nat),
    (runMapPageH baseR sel thr hasAqi metric).1.getD 0 [] = baseR ∧
    (runDataLab base strat bm norm sq pl ph = some res →
      res.1.getD 0 emptyDF = base) := by
  intro baseR sel thr hasAqi metric base strat bm norm sq pl ph res
  constructor
  · rfl
  · intro h
    cases strat <;> cases norm <;>
      simp only [runDataLab] at h <;>
      repeat' split at h
    all_goals
      first
        | (cases h; rfl)
        | simp_all

/-- C9 witness: a run of both pipelines with everything left at its
defaults preserves the base frame. -/
theorem claim_C9_witness :
    (runMapPageH [] [] none false "m").1.getD 0 [] = [] ∧
    (([emptyDF, emptyDF], 1) : List DF × Nat).1.getD 0 emptyDF = emptyDF :=
  ⟨(claim_C9 [] [] none false "m" emptyDF MissingStrategy.leave "m"
      NormChoice.nonorm (fun q => q) 0 100 ([emptyDF, emptyDF], 1)).1,
   (claim_C9 [] [] none false "m" emptyDF MissingStrategy.leave "m"
      NormChoice.nonorm (fun q => q) 0 100 ([emptyDF, emptyDF], 1)).2 rfl⟩

/-- C10: on both the deep-dive and PM2.5-trends pages, the country and
year columns of the PM2.5 dataset are guessed positionally: position 0
when no column is named `country`, position 1 when none is named
`year`; the two pages use the identical rule. -/
theorem claim_C10 : ∀ cols : List String,
    ("country" ∉ cols → deepDive_pmCountryCol cols = cols.get? 0) ∧
    ("year" ∉ cols → deepDive_pmYearCol cols = cols.get? 1) ∧
    deepDive_pmCountryCol cols = pm25_pmCountryCol cols ∧
    deepDive_pmYearCol cols = pm25_pmYearCol cols := by
  intro cols
  refine ⟨fun h => ?_, fun h => ?_, rfl, rfl⟩
  · unfold deepDive_pmCountryCol
    exact if_neg h
  · unfold deepDive_pmYearCol
    exact if_neg h

/-- C10 witness on a schema with neither a `country` nor a `year`
column. -/
theorem claim_C10_witness :
    deepDive_pmCountryCol ["nation", "yr", "val"] = some "nation" ∧
    deepDive_pmYearCol ["nation", "yr", "val"] = some "yr" ∧
    deepDive_pmCountryCol ["nation", "yr", "val"] =
      pm25_pmCountryCol ["nation", "yr", "val"] ∧
    deepDive_pmYearCol ["nation", "yr", "val"] =
      pm25_pmYearCol ["nation", "yr", "val"] := by
  have h := claim_C10 ["nation", "yr", "val"]
  exact ⟨by rw [h.1 (by decide)]; rfl, by rw [h.2.1 (by decide)]; rfl,
    h.2.2.1, h.2.2.2⟩

end AirDash
